import Mathlib

/-!
Shallow embedding of `pytest/node_plugin.py`: a pytest plugin providing a
`node` fixture that provisions (or reuses, or merely connects to) a remote
virtual machine, exposes it as a `Node`, and tears it down afterwards.

Python dictionaries whose values are strings are modelled as association
lists in insertion order (Python 3.7+ dicts preserve insertion order);
Python dict-lookup failure (`KeyError`) is modelled with `Option`;
the external collaborators (`deploy_vm`'s cloud CLI calls, the pytest
cache store, `uuid4`) are passed in as explicit parameters, and the calls
the fixture issues to them are recorded in the result so that claims about
"exactly one provisioning call" are statable.
-/

set_option autoImplicit false

namespace NodePlugin

/-- A Python `Dict[str, str]` in insertion order. -/
abbrev PyDict := List (String × String)

/-- `d[k]` as an `Option` (Python raises `KeyError` when absent). -/
def PyDict.get? (d : PyDict) (k : String) : Option String :=
  (d.find? (fun p => p.1 == k)).map (fun p => p.2)

/-- `d[k] = v`: replace in place when the key exists, else append
(Python dicts keep the original insertion position on overwrite). -/
def PyDict.set (d : PyDict) (k v : String) : PyDict :=
  if d.any (fun p => p.1 == k) then
    d.map (fun p => if p.1 == k then (k, v) else p)
  else
    d ++ [(k, v)]

/-- Python truthiness of an optional dict: `None` and `{}` are falsy. -/
def pyTruthy (d : Option PyDict) : Bool :=
  match d with
  | none => false
  | some l => !l.isEmpty

/-- Line 171 of `node_plugin.py`:
`key = "/".join(["node"] + list(filter(None, deploy_marker.kwargs.values())))`.
The kwargs values are taken in declaration (insertion) order and the falsy
(empty) strings are dropped by `filter(None, ...)`. -/
def cacheKey (kwargs : PyDict) : String :=
  String.intercalate "/" ("node" :: (kwargs.map (fun p => p.2)).filter (fun v => v ≠ ""))

example : cacheKey [("vm_image", "A"), ("vm_size", "B")] = "node/A/B" := by decide
example : cacheKey [("vm_size", "B"), ("vm_image", "A")] = "node/B/A" := by decide
example : cacheKey [("a", "x"), ("b", "")] = "node/x" := by decide
example : cacheKey [("a", ""), ("b", "x")] = "node/x" := by decide
example : cacheKey [] = "node" := by decide

/-- The pytest cache (`request.config.cache`): a persistent string-keyed
store. A stored `none` models `cache.set(key, None)`; `Cache.get` returns
the Python `cache.get(key, None)`, so an absent key and a stored `None`
both come back as `none`. -/
structure Cache where
  entries : List (String × Option PyDict)

/-- `request.config.cache.get(key, None)`. -/
def Cache.get (c : Cache) (k : String) : Option PyDict :=
  match c.entries.find? (fun p => p.1 == k) with
  | some p => p.2
  | none => none

/-- `request.config.cache.set(key, value)`. -/
def Cache.set (c : Cache) (k : String) (v : Option PyDict) : Cache :=
  ⟨(k, v) :: c.entries.filter (fun p => !(p.1 == k))⟩

/-- What the setup half of the `node` fixture (lines 160-205) produced:
the fields assigned onto the yielded `Node` (`n.name`, `n.data`, the host
it connected to), the value of the local variable `key` (`none` when the
deploy branch did not run, so that the variable is unbound), the
`deploy_vm` calls issued (deployment name and kwargs of each), and the
cache state afterwards. -/
structure SetupResult where
  name : String
  host : String
  data : PyDict
  key : Option String
  deployCalls : List (String × PyDict)
  cache : Cache

/-- Lines 160-205 of `node_plugin.py`: the body of the `node` fixture up to
`yield`. `deployMarker` carries the kwargs of a `@pytest.mark.deploy`
marker, `connectMarker` the first positional argument of a
`@pytest.mark.connect` marker; `uuid` stands for the `uuid4()` draw and
`deployVM` for the external `deploy_vm`, returning `(host, data)`.
Returns `none` where Python raises `KeyError` (a cached descriptor lacking
`"name"` or `"host"`). -/
def nodeSetup (deployMarker : Option PyDict) (connectMarker : Option String)
    (cache : Cache) (uuid : String)
    (deployVM : String → PyDict → String × PyDict) : Option SetupResult :=
  match deployMarker with
  | some kwargs =>
    let key := cacheKey kwargs
    let cached := cache.get key
    if pyTruthy cached then do
      let data ← cached
      let nm ← data.get? "name"
      let h ← data.get? "host"
      pure ⟨nm, h, data, some key, [], cache⟩
    else
      let name := "pytest-" ++ uuid
      let hd := deployVM name kwargs
      let data := (hd.2.set "name" name).set "host" hd.1
      let cache1 := cache.set key (some data)
      do
        let nm ← data.get? "name"
        let h ← data.get? "host"
        pure ⟨nm, h, data, some key, [(name, kwargs)], cache1⟩
  | none =>
    match connectMarker with
    | some h => some ⟨"pre-deployed:" ++ h, h, [], none, [], cache⟩
    | none => some ⟨"localhost", "localhost", [], none, [], cache⟩

/-- A Python error raised by the teardown code. -/
inductive PyError where
  | nameError (var : String)
deriving DecidableEq

/-- What the teardown half produced: the `delete_vm` calls issued (the
deployment name of each) and the cache state afterwards. -/
structure TeardownResult where
  deleteCalls : List String
  cache : Cache

/-- Lines 207-211 of `node_plugin.py`:
`if not request.config.getoption("keep_vms") and key: delete_vm(name);
request.config.cache.set(key, None)`. When `keep_vms` is truthy the `and`
short-circuits without evaluating `key`; otherwise evaluating the unbound
local `key` raises `NameError` (its `UnboundLocalError` subclass). -/
def nodeTeardown (keepVMs : Bool) (key : Option String) (name : String)
    (cache : Cache) : Except PyError TeardownResult :=
  if keepVMs then
    .ok ⟨[], cache⟩
  else
    match key with
    | none => .error (.nameError "key")
    | some k =>
      if k = "" then .ok ⟨[], cache⟩
      else .ok ⟨[name], cache.set k none⟩

/-- The `delete_vm` calls a teardown outcome issued: an erroring teardown
issued none (the `NameError` is raised while evaluating the `if`
condition, before `delete_vm` could run). -/
def deleteCallsOf (r : Except PyError TeardownResult) : List String :=
  match r with
  | .ok t => t.deleteCalls
  | .error _ => []

/-- The PATH override installed by the fixture (lines 197-200):
`ssh_config["run"]["env"] = {"PATH": ...}`. -/
def sshRunEnv : PyDict :=
  [("PATH", "/sbin:/usr/sbin:/usr/local/sbin:/bin:/usr/bin:/usr/local/bin")]

/-- A command-runner invocation as the `invoke`/`fabric` libraries receive
it: the command string, the `env` override mapping, and the `replace_env`
flag (when true the given `env` replaces, rather than updates, the ambient
environment). -/
structure RunInvocation where
  command : String
  env : PyDict
  replace_env : Bool
deriving DecidableEq

/-- `Node.local` (lines 128-130): patches Fabric's `local()` to ignore the
SSH environment by invoking the inherited invoke-`Context.run` with
`replace_env=False, env={}` regardless of the session configuration. -/
def Node.localRun (cmd : String) : RunInvocation :=
  ⟨cmd, [], false⟩

/-- A remote `Node.run` on the fixture-yielded connection: fabric's
`Connection.run` applies the configured `run.env` (the fixture sets it to
`sshRunEnv`, line 197) and, for remote commands, replaces the remote
environment with it (`inline_ssh_env=True`, line 202). -/
def Node.remoteRun (cmd : String) : RunInvocation :=
  ⟨cmd, sshRunEnv, true⟩

/-- The command `Node.get_boot_diagnostics` runs (line 136). -/
def bootDiagnosticsCommand (name : String) : String :=
  "az vm boot-diagnostics get-boot-log -n " ++ name ++ " -g " ++ name ++ "-rg"

/-- `tenacity.wait_exponential()` with its defaults
(`multiplier=1, exp_base=2, min=0, max` effectively unbounded): the sleep
after failed attempt number `n` is `2 ^ (n - 1)` seconds. -/
def waitExponential (attemptNumber : Nat) : Nat :=
  2 ^ (attemptNumber - 1)

/-- The `tenacity.retry(wait=wait_exponential(), stop=stop_after_delay d)`
loop. Each prospective attempt is given as its outcome together with the
seconds it took. After a failed attempt the stop condition
(`seconds_since_start >= d`) is checked: when met the loop abandons,
surfacing that last failure; otherwise it sleeps `waitExponential n` and
retries. A success returns immediately. `none` means the supplied attempt
list was exhausted with the loop still running (the real decorator would
keep calling the wrapped function). -/
def tenacityRetry {E A : Type} (stopDelay : Nat) (attemptNumber : Nat)
    (elapsed : Nat) : List (Except E A × Nat) → Option (Except E A)
  | [] => none
  | (outcome, dur) :: rest =>
    let elapsed1 := elapsed + dur
    match outcome with
    | .ok a => some (.ok a)
    | .error e =>
      if stopDelay ≤ elapsed1 then some (.error e)
      else
        tenacityRetry stopDelay (attemptNumber + 1)
          (elapsed1 + waitExponential attemptNumber) rest

/-- `Node.get_boot_diagnostics` (lines 132-137): the boot-log command under
`@retry(wait=wait_exponential(), stop=stop_after_delay(60))`. `attempts`
gives the outcome and duration of each underlying
`self.local(az vm boot-diagnostics ...)` call. -/
def Node.get_boot_diagnostics {E A : Type}
    (attempts : List (Except E A × Nat)) : Option (Except E A) :=
  tenacityRetry 60 1 0 attempts

/-- Whitespace as Python's `str.strip()` judges it (the ASCII cases). -/
def pyIsSpace (c : Char) : Bool :=
  c = ' ' || c = '\t' || c = '\n' || c = '\r' || c = '\x0b' || c = '\x0c'

/-- Python `str.strip()`: removes leading and trailing whitespace. -/
def pyStrip (s : String) : String :=
  ⟨((s.data.dropWhile pyIsSpace).reverse.dropWhile pyIsSpace).reverse⟩

/-- `Node.cat` (lines 143-147): `self.get(path, buf)` streams the remote
file into an in-memory `BytesIO` buffer (no temporary file on either
side), and the result is `buf.getvalue().decode("utf-8").strip()`.
`content` is the file's full content, already UTF-8-decoded: `cat` is a
pure function of it. -/
def Node.cat (content : String) : String :=
  pyStrip content

/-- Trimming trailing whitespace only (what the spec sentence for
`fetch_text` describes, to be compared against `Node.cat`). -/
def trimTrailing (s : String) : String :=
  ⟨(s.data.reverse.dropWhile pyIsSpace).reverse⟩

example : Node.cat " hello \n" = "hello" := by decide
example : trimTrailing " hello \n" = " hello" := by decide

/-- The inner `config["run"]` dict (lines 27-37): command echoing,
stdin forwarding disabled, the 300-second timeout, and the `env` override
once one is assigned. -/
structure RunSettings where
  echo : Bool
  in_stream : Bool
  timeout : Nat
  env : Option PyDict
deriving DecidableEq

/-- Python dict values are references; the outer `config` dict maps
`"run"` to a heap address holding `RunSettings`. -/
abbrev Addr := Nat

/-- The outer (module-level) `config` dict. -/
abbrev ConfigDict := List (String × Addr)

/-- A heap of inner run-settings dicts, addressed by `Addr`. -/
abbrev Heap := List (Addr × RunSettings)

/-- Dereference an address. -/
def Heap.get (h : Heap) (a : Addr) : Option RunSettings :=
  (h.find? (fun p => p.1 == a)).map (fun p => p.2)

/-- Mutate the dict at an address in place. -/
def Heap.set (h : Heap) (a : Addr) (r : RunSettings) : Heap :=
  h.map (fun p => if p.1 == a then (a, r) else p)

/-- Address of the module-level inner `"run"` dict. -/
def runAddr : Addr := 0

/-- Lines 27-37: `config = {"run": {"echo": True, "in_stream": False,
"timeout": 300}}` (no `env` yet). -/
def initialRunSettings : RunSettings :=
  ⟨true, false, 300, none⟩

/-- The module-level `config` dict: `{"run": <runAddr>}`. This same dict
is handed to `invoke.Config(overrides=config)` for the `local` context
(line 42). -/
def moduleConfig : ConfigDict :=
  [("run", runAddr)]

/-- The module-level heap at import time. -/
def initialHeap : Heap :=
  [(runAddr, initialRunSettings)]

/-- `config.copy()` (line 196): a shallow copy builds a new outer dict
holding the same inner-dict references (addresses). -/
def ConfigDict.shallowCopy (d : ConfigDict) : ConfigDict :=
  d.map (fun p => p)

/-- Lines 196-200 of the fixture:
`ssh_config = config.copy(); ssh_config["run"]["env"] = {"PATH": ...}`.
The item assignment dereferences `ssh_config["run"]` and mutates the heap
cell it points to. Returns the heap afterwards and the `ssh_config` dict. -/
def fixtureConfigSetup (heap : Heap) (cfg : ConfigDict) : Heap × ConfigDict :=
  let ssh_config := cfg.shallowCopy
  match ssh_config.lookup "run" with
  | some a =>
    match heap.get a with
    | some r => (heap.set a { r with env := some sshRunEnv }, ssh_config)
    | none => (heap, ssh_config)
  | none => (heap, ssh_config)

example :
    ((fixtureConfigSetup initialHeap moduleConfig).1.get runAddr).map
      RunSettings.env = some (some sshRunEnv) := by decide
example : Node.get_boot_diagnostics
    [(Except.error "transient", 0), (Except.error "transient", 0),
     (Except.ok "log", 0)] = some (Except.ok "log") := by rfl

/-! ### Helper lemmas about the embedded dictionary operations -/

theorem PyDict.find?_map_update (d : PyDict) (k v : String) :
    (d.map (fun p => if p.1 == k then (k, v) else p)).find? (fun p => p.1 == k) =
      if d.any (fun p => p.1 == k) then some (k, v) else none := by
  induction d with
  | nil => rfl
  | cons hd tl ih =>
    by_cases h : hd.1 == k
    · rw [List.map_cons, if_pos h]
      simp [List.find?_cons, h]
    · simp only [List.map_cons, if_neg h, List.any_cons, h, Bool.false_or]
      rw [List.find?_cons_of_neg _ (by simpa using h)]
      exact ih

theorem PyDict.get?_set_self (d : PyDict) (k v : String) :
    (d.set k v).get? k = some v := by
  unfold PyDict.set PyDict.get?
  by_cases h : d.any (fun p => p.1 == k)
  · rw [if_pos h, PyDict.find?_map_update, if_pos h]
    rfl
  · rw [if_neg h, List.find?_append]
    have hnone : d.find? (fun p => p.1 == k) = none := by
      rw [List.find?_eq_none]
      intro x hx hpx
      exact h (List.any_eq_true.mpr ⟨x, hx, hpx⟩)
    simp [hnone]

theorem PyDict.get?_set_of_ne (d : PyDict) (k v k' : String) (hne : (k == k') = false) :
    (d.set k v).get? k' = d.get? k' := by
  unfold PyDict.set PyDict.get?
  by_cases h : d.any (fun p => p.1 == k)
  · rw [if_pos h]
    congr 1
    clear h
    induction d with
    | nil => rfl
    | cons hd tl ih =>
      by_cases hh : hd.1 == k
      · have h1 : (hd.1 == k') = false := by
          have he : hd.1 = k := by simpa using hh
          simpa [he] using hne
        simp only [List.map_cons, if_pos hh]
        rw [List.find?_cons_of_neg _ (by simpa using hne),
          List.find?_cons_of_neg _ (by simpa using h1)]
        exact ih
      · simp only [List.map_cons, if_neg hh, List.find?_cons]
        cases hc : hd.1 == k' with
        | false => simp only [hc]; exact ih
        | true => simp only [hc]
  · rw [if_neg h, List.find?_append]
    have h2 : ([(k, v)].find? (fun p => p.1 == k')) = none := by
      simp [List.find?_cons, hne]
    rw [h2, Option.or_none]

theorem PyDict.set_ne_nil (d : PyDict) (k v : String) : d.set k v ≠ [] := by
  unfold PyDict.set
  by_cases h : d.any (fun p => p.1 == k)
  · rw [if_pos h]
    cases d with
    | nil => simp at h
    | cons hd tl => simp
  · rw [if_neg h]
    simp

theorem Cache.get_set_same (c : Cache) (k : String) (v : Option PyDict) :
    (c.set k v).get k = v := by
  unfold Cache.set Cache.get
  simp [List.find?_cons]

theorem Heap.get_set_present (h : Heap) (a : Addr) (r0 r1 : RunSettings)
    (hg : h.get a = some r0) : (h.set a r1).get a = some r1 := by
  unfold Heap.get Heap.set at *
  induction h with
  | nil => simp at hg
  | cons hd tl ih =>
    by_cases hh : hd.1 == a
    · rw [List.map_cons, if_pos hh]
      simp [List.find?_cons]
    · simp only [List.map_cons, if_neg hh]
      rw [List.find?_cons_of_neg _ (by simpa using hh)]
      rw [List.find?_cons_of_neg _ (by simpa using hh)] at hg
      exact ih hg

theorem intercalate_go_length (s : String) (f : List String) (acc : String) :
    acc.length ≤ (String.intercalate.go acc s f).length := by
  induction f generalizing acc with
  | nil => simp [String.intercalate.go]
  | cons a as ih =>
    calc acc.length ≤ (acc ++ s ++ a).length := by
          simp [String.length_append]
          omega
      _ ≤ _ := by
          rw [show String.intercalate.go acc s (a :: as) =
            String.intercalate.go (acc ++ s ++ a) s as from rfl]
          exact ih _

theorem cacheKey_ne_empty (kwargs : PyDict) : cacheKey kwargs ≠ "" := by
  intro h
  have h4 : ("node" : String).length ≤ (cacheKey kwargs).length := by
    unfold cacheKey
    rw [show String.intercalate "/"
      ("node" :: (kwargs.map (fun p => p.2)).filter (fun v => v ≠ "")) =
      String.intercalate.go "node" "/"
        ((kwargs.map (fun p => p.2)).filter (fun v => v ≠ "")) from rfl]
    exact intercalate_go_length _ _ _
  rw [h] at h4
  simp [String.length] at h4

/-! ### Claim C1 -/

/-- Claim C1, as stated, fails on the code: the key joins the kwargs
values in declaration (dict-insertion) order, so two intents declaring the
identical parameters (a permutation of the same name-value pairs) derive
different keys when declared in a different order; and since the key drops
empty values and ignores parameter names, two intents that differ in the
value of parameter `"a"` can derive the same key. -/
theorem cacheKey_claim_counterexample :
    ([("vm_image", "A"), ("vm_size", "B")] : PyDict).Perm
        [("vm_size", "B"), ("vm_image", "A")] ∧
      cacheKey [("vm_image", "A"), ("vm_size", "B")] ≠
        cacheKey [("vm_size", "B"), ("vm_image", "A")] ∧
      PyDict.get? [("a", "x"), ("b", "")] "a" ≠
        PyDict.get? [("a", ""), ("b", "x")] "a" ∧
      cacheKey [("a", "x"), ("b", "")] = cacheKey [("a", ""), ("b", "x")] := by
  refine ⟨by decide, by decide, by decide, by decide⟩

/-- Claim C1 (amended): the derived cache key is the same string for every
pair of deployment intents whose sequences of non-empty declared parameter
values, in declaration order, coincide — in particular for identical
declarations in the same order — and a parameter declared with an
empty/absent value is excluded from the key (appending one never changes
the key). Reordering declarations may change the key, and intents
differing in a parameter value may collide. -/
theorem cacheKey_stable (k1 k2 : PyDict) (pname : String)
    (h : (k1.map (fun p => p.2)).filter (fun v => v ≠ "") =
         (k2.map (fun p => p.2)).filter (fun v => v ≠ "")) :
    cacheKey k1 = cacheKey k2 ∧
      cacheKey (k1 ++ [(pname, "")]) = cacheKey k1 := by
  constructor
  · unfold cacheKey
    rw [h]
  · unfold cacheKey
    congr 2
    rw [List.map_append, List.filter_append]
    simp

/-- `cacheKey_stable` applied at a concrete pair of intents: dropping a
parameter declared empty leaves the key unchanged. -/
theorem cacheKey_stable_witness :
    cacheKey [("setup", ""), ("vm_image", "A")] = cacheKey [("vm_image", "A")] ∧
      cacheKey ([("setup", ""), ("vm_image", "A")] ++ [("networking", "")]) =
        cacheKey [("setup", ""), ("vm_image", "A")] :=
  cacheKey_stable [("setup", ""), ("vm_image", "A")] [("vm_image", "A")]
    "networking" (by decide)

/-! ### Claim C7 -/

/-- Claim C7: for every command, `Node.local` invokes the runner with an
empty `env` override and `replace_env=False`, so a local run never
receives the remote environment override map (the configured PATH
environment, `sshRunEnv`) that a remote run on the same Node receives. -/
theorem local_run_isolated_env (cmd : String) :
    (Node.localRun cmd).env = [] ∧
      (Node.localRun cmd).replace_env = false ∧
      PyDict.get? (Node.localRun cmd).env "PATH" = none ∧
      (Node.remoteRun cmd).env = sshRunEnv ∧
      (Node.localRun cmd).env ≠ (Node.remoteRun cmd).env := by
  exact ⟨rfl, rfl, rfl, rfl, by simp [Node.localRun, Node.remoteRun, sshRunEnv]⟩

/-! ### Claims C2 and C3 -/

/-- Claim C2: on the provision-or-reuse path, a cache hit (the computed
key maps to a non-empty cached descriptor) makes no `deploy_vm` call, and
the yielded Node's `name` and `host` are exactly the `"name"` and
`"host"` fields of the cached descriptor; the cache is left unchanged. -/
theorem cache_hit_reuses_descriptor
    (kwargs : PyDict) (cm : Option String) (cache : Cache) (uuid : String)
    (deployVM : String → PyDict → String × PyDict)
    (d : PyDict) (nm h : String)
    (hcache : cache.get (cacheKey kwargs) = some d)
    (hne : d ≠ [])
    (hnm : d.get? "name" = some nm)
    (hh : d.get? "host" = some h) :
    nodeSetup (some kwargs) cm cache uuid deployVM =
      some ⟨nm, h, d, some (cacheKey kwargs), [], cache⟩ := by
  have hde : d.isEmpty = false := by
    cases d with
    | nil => exact absurd rfl hne
    | cons x xs => rfl
  simp only [nodeSetup, hcache, pyTruthy, hde, Bool.not_false, if_true]
  simp [hnm, hh]

/-- `cache_hit_reuses_descriptor` applied to a concrete cached
deployment: the stored descriptor's name and host are reused verbatim and
no `deploy_vm` call is recorded. -/
theorem cache_hit_reuses_descriptor_witness :
    nodeSetup (some [("vm_image", "A")]) none
        ⟨[("node/A", some [("name", "n1"), ("host", "1.2.3.4")])]⟩ "u"
        (fun _ _ => ("", [])) =
      some ⟨"n1", "1.2.3.4", [("name", "n1"), ("host", "1.2.3.4")],
        some "node/A", [], ⟨[("node/A", some [("name", "n1"), ("host", "1.2.3.4")])]⟩⟩ :=
  cache_hit_reuses_descriptor [("vm_image", "A")] none
    ⟨[("node/A", some [("name", "n1"), ("host", "1.2.3.4")])]⟩ "u"
    (fun _ _ => ("", [])) [("name", "n1"), ("host", "1.2.3.4")] "n1" "1.2.3.4"
    (by decide) (by decide) (by decide) (by decide)

/-- Claim C3: on the provision-or-reuse path, a cache miss (the computed
key maps to `None` or to an empty descriptor) makes exactly one
`deploy_vm` call, with the freshly generated deployment name
`pytest-<uuid4>`; the returned descriptor is stored under the key with
`"name"` and `"host"` merged in, and a subsequent lookup of the same key
is a hit (a non-empty descriptor — exactly the stored one). -/
theorem cache_miss_deploys_once_and_stores
    (kwargs : PyDict) (cm : Option String) (cache : Cache) (uuid : String)
    (deployVM : String → PyDict → String × PyDict)
    (hmiss : pyTruthy (cache.get (cacheKey kwargs)) = false) :
    ∃ r : SetupResult,
      nodeSetup (some kwargs) cm cache uuid deployVM = some r ∧
        r.deployCalls = [("pytest-" ++ uuid, kwargs)] ∧
        r.name = "pytest-" ++ uuid ∧
        r.host = (deployVM ("pytest-" ++ uuid) kwargs).1 ∧
        r.data.get? "name" = some r.name ∧
        r.data.get? "host" = some r.host ∧
        r.cache.get (cacheKey kwargs) = some r.data ∧
        pyTruthy (r.cache.get (cacheKey kwargs)) = true := by
  set name := "pytest-" ++ uuid with hname
  set hd := deployVM name kwargs with hhd
  set data := (hd.2.set "name" name).set "host" hd.1 with hdata
  have hgn : data.get? "name" = some name := by
    rw [hdata, PyDict.get?_set_of_ne _ _ _ _ (by decide), PyDict.get?_set_self]
  have hgh : data.get? "host" = some hd.1 := by
    rw [hdata, PyDict.get?_set_self]
  have hdne : data ≠ [] := PyDict.set_ne_nil _ _ _
  have hde : data.isEmpty = false := by
    cases hdd : data with
    | nil => exact absurd hdd hdne
    | cons x xs => rfl
  refine ⟨⟨name, hd.1, data, some (cacheKey kwargs), [(name, kwargs)],
    cache.set (cacheKey kwargs) (some data)⟩, ?_, rfl, rfl, rfl, hgn, hgh, ?_, ?_⟩
  · simp only [nodeSetup, hmiss, Bool.false_eq_true, if_false]
    simp [hgn, hgh, ← hname, ← hhd, ← hdata]
  · exact Cache.get_set_same _ _ _
  · rw [Cache.get_set_same]
    simp [pyTruthy, hde]

/-- `cache_miss_deploys_once_and_stores` applied to an empty cache and a
concrete deployment oracle. -/
theorem cache_miss_deploys_once_and_stores_witness :
    ∃ r : SetupResult,
      nodeSetup (some [("vm_image", "A")]) none ⟨[]⟩ "u"
          (fun _ _ => ("9.9.9.9", [("publicIpAddress", "9.9.9.9")])) = some r ∧
        r.deployCalls = [("pytest-" ++ "u", [("vm_image", "A")])] ∧
        r.name = "pytest-" ++ "u" ∧
        r.host = ((fun (_ : String) (_ : PyDict) =>
          ("9.9.9.9", [("publicIpAddress", "9.9.9.9")])) ("pytest-" ++ "u")
            [("vm_image", "A")]).1 ∧
        r.data.get? "name" = some r.name ∧
        r.data.get? "host" = some r.host ∧
        r.cache.get (cacheKey [("vm_image", "A")]) = some r.data ∧
        pyTruthy (r.cache.get (cacheKey [("vm_image", "A")])) = true :=
  cache_miss_deploys_once_and_stores [("vm_image", "A")] none ⟨[]⟩ "u"
    (fun _ _ => ("9.9.9.9", [("publicIpAddress", "9.9.9.9")])) (by decide)

/-- On the deploy-marker path the fixture always binds the local variable
`key` to the computed cache key, and afterwards the cache holds, under
that key, exactly the (non-empty) descriptor the yielded Node carries. -/
theorem nodeSetup_deploy_inv
    (kwargs : PyDict) (cm : Option String) (cache : Cache) (uuid : String)
    (deployVM : String → PyDict → String × PyDict) (r : SetupResult)
    (hsetup : nodeSetup (some kwargs) cm cache uuid deployVM = some r) :
    r.key = some (cacheKey kwargs) ∧
      r.cache.get (cacheKey kwargs) = some r.data ∧
      r.data ≠ [] := by
  simp only [nodeSetup] at hsetup
  split at hsetup
  case isTrue htr =>
    rcases Option.bind_eq_some.mp hsetup with ⟨d, hc, h1⟩
    rcases Option.bind_eq_some.mp h1 with ⟨nm, hnm, h2⟩
    rcases Option.bind_eq_some.mp h2 with ⟨h, hh, h3⟩
    have hr : r = ⟨nm, h, d, some (cacheKey kwargs), [], cache⟩ :=
      (Option.some.inj h3).symm
    subst hr
    have hdne : d ≠ [] := by
      rw [hc] at htr
      simp only [pyTruthy, Bool.not_eq_true'] at htr
      intro he
      rw [he] at htr
      simp at htr
    exact ⟨rfl, hc, hdne⟩
  case isFalse htr =>
    rcases Option.bind_eq_some.mp hsetup with ⟨nm, hnm, h1⟩
    rcases Option.bind_eq_some.mp h1 with ⟨h, hh, h2⟩
    have hr : r = ⟨nm, h,
        (((deployVM ("pytest-" ++ uuid) kwargs).2.set "name"
          ("pytest-" ++ uuid)).set "host" (deployVM ("pytest-" ++ uuid) kwargs).1),
        some (cacheKey kwargs), [("pytest-" ++ uuid, kwargs)],
        cache.set (cacheKey kwargs)
          (some (((deployVM ("pytest-" ++ uuid) kwargs).2.set "name"
            ("pytest-" ++ uuid)).set "host"
              (deployVM ("pytest-" ++ uuid) kwargs).1))⟩ :=
      (Option.some.inj h2).symm
    subst hr
    exact ⟨rfl, Cache.get_set_same _ _ _, PyDict.set_ne_nil _ _ _⟩

/-! ### Claims C4, C5 and C6 -/

/-- Claim C4: after any provision-or-reuse setup, teardown with run-scoped
VM retention disabled (`keep_vms` falsy) issues exactly one `delete_vm`
call, for the yielded Node's deployment name, and clears the cache entry
for the computed key (so the key no longer returns a usable — truthy —
descriptor); with retention enabled, teardown issues no `delete_vm` call
and leaves the cache unchanged, still returning the stored descriptor. -/
theorem teardown_destroy_and_retention
    (kwargs : PyDict) (cm : Option String) (cache : Cache) (uuid : String)
    (deployVM : String → PyDict → String × PyDict) (r : SetupResult)
    (hsetup : nodeSetup (some kwargs) cm cache uuid deployVM = some r) :
    nodeTeardown false r.key r.name r.cache =
        .ok ⟨[r.name], r.cache.set (cacheKey kwargs) none⟩ ∧
      pyTruthy ((r.cache.set (cacheKey kwargs) none).get (cacheKey kwargs)) = false ∧
      nodeTeardown true r.key r.name r.cache = .ok ⟨[], r.cache⟩ ∧
      r.cache.get (cacheKey kwargs) = some r.data ∧
      pyTruthy (r.cache.get (cacheKey kwargs)) = true := by
  obtain ⟨hkey, hcget, hdne⟩ := nodeSetup_deploy_inv _ _ _ _ _ _ hsetup
  have hde : r.data.isEmpty = false := by
    cases hdd : r.data with
    | nil => exact absurd hdd hdne
    | cons x xs => rfl
  refine ⟨?_, ?_, rfl, hcget, ?_⟩
  · rw [hkey]
    unfold nodeTeardown
    simp [cacheKey_ne_empty kwargs]
  · rw [Cache.get_set_same]
    rfl
  · rw [hcget]
    simp [pyTruthy, hde]

/-- `teardown_destroy_and_retention` applied to a concrete reused
deployment: retention disabled destroys `n1` and clears the key,
retention enabled destroys nothing and keeps the descriptor. -/
theorem teardown_destroy_and_retention_witness :
    nodeTeardown false (some "node/A") "n1"
        ⟨[("node/A", some [("name", "n1"), ("host", "1.2.3.4")])]⟩ =
        .ok ⟨["n1"], Cache.set ⟨[("node/A", some [("name", "n1"), ("host", "1.2.3.4")])]⟩
          "node/A" none⟩ ∧
      pyTruthy ((Cache.set ⟨[("node/A", some [("name", "n1"), ("host", "1.2.3.4")])]⟩
        "node/A" none).get "node/A") = false ∧
      nodeTeardown true (some "node/A") "n1"
        ⟨[("node/A", some [("name", "n1"), ("host", "1.2.3.4")])]⟩ =
        .ok ⟨[], ⟨[("node/A", some [("name", "n1"), ("host", "1.2.3.4")])]⟩⟩ ∧
      Cache.get ⟨[("node/A", some [("name", "n1"), ("host", "1.2.3.4")])]⟩ "node/A" =
        some [("name", "n1"), ("host", "1.2.3.4")] ∧
      pyTruthy (Cache.get ⟨[("node/A", some [("name", "n1"), ("host", "1.2.3.4")])]⟩
        "node/A") = true :=
  teardown_destroy_and_retention [("vm_image", "A")] none
    ⟨[("node/A", some [("name", "n1"), ("host", "1.2.3.4")])]⟩ "u"
    (fun _ _ => ("", []))
    ⟨"n1", "1.2.3.4", [("name", "n1"), ("host", "1.2.3.4")], some "node/A", [],
      ⟨[("node/A", some [("name", "n1"), ("host", "1.2.3.4")])]⟩⟩ rfl

/-- Claim C5: a connect-only invocation with declared host `h` yields a
Node named `pre-deployed:<h>` connected to `h`, with an empty descriptor
mapping, makes no `deploy_vm` call, and its teardown never issues a
`delete_vm` call (whatever the retention setting). -/
theorem connect_only_node (h : String) (cache : Cache) (uuid : String)
    (deployVM : String → PyDict → String × PyDict) :
    nodeSetup none (some h) cache uuid deployVM =
        some ⟨"pre-deployed:" ++ h, h, [], none, [], cache⟩ ∧
      (∀ keepVMs : Bool,
        deleteCallsOf (nodeTeardown keepVMs none ("pre-deployed:" ++ h) cache) = []) := by
  refine ⟨rfl, ?_⟩
  intro keepVMs
  cases keepVMs <;> rfl

/-- Claim C6: on both marker-less paths (connect-only and default/local)
the local variable `key` stays unbound; with retention disabled, teardown
evaluates it in the `if` condition, raising `NameError` even though
nothing was provisioned. -/
theorem teardown_name_error_without_deploy
    (cm : Option String) (cache : Cache) (uuid : String)
    (deployVM : String → PyDict → String × PyDict) (r : SetupResult)
    (hsetup : nodeSetup none cm cache uuid deployVM = some r) :
    r.key = none ∧ r.deployCalls = [] ∧
      nodeTeardown false r.key r.name r.cache = .error (.nameError "key") := by
  cases cm with
  | none =>
    have hr : r = ⟨"localhost", "localhost", [], none, [], cache⟩ :=
      (Option.some.inj hsetup).symm
    subst hr
    exact ⟨rfl, rfl, rfl⟩
  | some hh =>
    have hr : r = ⟨"pre-deployed:" ++ hh, hh, [], none, [], cache⟩ :=
      (Option.some.inj hsetup).symm
    subst hr
    exact ⟨rfl, rfl, rfl⟩

/-- `teardown_name_error_without_deploy` applied to a concrete
connect-only invocation. -/
theorem teardown_name_error_without_deploy_witness :
    (⟨"pre-deployed:" ++ "203.0.113.5", "203.0.113.5", [], none, [],
        ⟨[]⟩⟩ : SetupResult).key = none ∧
      (⟨"pre-deployed:" ++ "203.0.113.5", "203.0.113.5", [], none, [],
        ⟨[]⟩⟩ : SetupResult).deployCalls = [] ∧
      nodeTeardown false none ("pre-deployed:" ++ "203.0.113.5") ⟨[]⟩ =
        .error (.nameError "key") :=
  teardown_name_error_without_deploy (some "203.0.113.5") ⟨[]⟩ "u"
    (fun _ _ => ("", []))
    ⟨"pre-deployed:" ++ "203.0.113.5", "203.0.113.5", [], none, [], ⟨[]⟩⟩ rfl

/-! ### Claim C8 -/

/-- Claim C8: `get_boot_diagnostics` retries under
`wait_exponential()`/`stop_after_delay(60)`: an invocation that fails
twice with a transient error and succeeds on the third attempt returns
the successful result provided total elapsed time (attempt durations plus
the 1- and 2-second exponential back-off sleeps) stays under 60 seconds;
and once 60 seconds have elapsed at a failure, the retry loop abandons,
surfacing that last failure. -/
theorem boot_diagnostics_retry {E A : Type} (e1 e2 : E) (a : A) (d1 d2 d3 : Nat)
    (h1 : d1 < 60) (h2 : d1 + 1 + d2 < 60) :
    Node.get_boot_diagnostics
        [(Except.error e1, d1), (Except.error e2, d2), (Except.ok a, d3)] =
      some (Except.ok a) ∧
      (∀ (d : Nat) (rest : List (Except E A × Nat)), 60 ≤ d →
        Node.get_boot_diagnostics ((Except.error e1, d) :: rest) =
          some (Except.error e1)) := by
  constructor
  · have hw1 : waitExponential 1 = 1 := rfl
    simp only [Node.get_boot_diagnostics, tenacityRetry]
    rw [if_neg (by omega), if_neg (by rw [hw1]; omega)]
  · intro d rest hd
    simp only [Node.get_boot_diagnostics, tenacityRetry]
    rw [if_pos (by omega)]

/-- `boot_diagnostics_retry` applied to a concrete fail-fail-succeed
attempt sequence. -/
theorem boot_diagnostics_retry_witness :
    Node.get_boot_diagnostics
        [(Except.error "transient", 0), (Except.error "transient", 0),
          (Except.ok "log", 0)] = some (Except.ok "log") ∧
      (∀ (d : Nat) (rest : List (Except String String × Nat)), 60 ≤ d →
        Node.get_boot_diagnostics ((Except.error "transient", d) :: rest) =
          some (Except.error "transient")) :=
  boot_diagnostics_retry "transient" "transient" "log" 0 0 0
    (by decide) (by decide)

/-! ### Claim C9 -/

/-- Claim C9, as stated, fails on the code: `Node.cat` returns
`buf.getvalue().decode("utf-8").strip()`, and Python's `strip()` removes
leading as well as trailing whitespace, so on content with leading
whitespace the result is not the content with only its trailing
whitespace trimmed. -/
theorem cat_claim_counterexample :
    Node.cat "\nhello\n" = "hello" ∧
      trimTrailing "\nhello\n" = "\nhello" ∧
      Node.cat "\nhello\n" ≠ trimTrailing "\nhello\n" := by
  refine ⟨by decide, by decide, by decide⟩

theorem dropWhile_head?_false {α : Type} (p : α → Bool) (l : List α) (c : α)
    (h : (l.dropWhile p).head? = some c) : p c = false := by
  induction l with
  | nil => simp [List.dropWhile] at h
  | cons a t ih =>
    by_cases hpa : p a
    · rw [List.dropWhile_cons_of_pos hpa] at h
      exact ih h
    · rw [List.dropWhile_cons_of_neg hpa] at h
      simp only [List.head?_cons, Option.some.injEq] at h
      subst h
      cases hb : p a with
      | false => rfl
      | true => exact absurd hb hpa

theorem dropWhile_getLast?_of_ne_nil {α : Type} (p : α → Bool) (l : List α)
    (h : l.dropWhile p ≠ []) : (l.dropWhile p).getLast? = l.getLast? := by
  induction l with
  | nil => simp [List.dropWhile] at h
  | cons a t ih =>
    by_cases hpa : p a
    · rw [List.dropWhile_cons_of_pos hpa] at h ⊢
      rw [ih h]
      have htne : t ≠ [] := by
        intro he
        rw [he] at h
        simp [List.dropWhile] at h
      cases t with
      | nil => exact absurd rfl htne
      | cons b t2 => rw [List.getLast?_cons_cons]
    · rw [List.dropWhile_cons_of_neg hpa]

/-- Claim C9 (amended): `Node.cat` reads the remote file fully into an
in-memory buffer (no temporary file; `cat` is a pure function of the
content) and returns it UTF-8-decoded with leading **and** trailing
whitespace trimmed: the content splits as whitespace ++ result ++
whitespace, and the result neither starts nor ends with whitespace. -/
theorem cat_trims_both_ends (content : String) :
    ∃ pre post : List Char,
      (∀ c ∈ pre, pyIsSpace c = true) ∧
      (∀ c ∈ post, pyIsSpace c = true) ∧
      content.data = pre ++ (Node.cat content).data ++ post ∧
      (∀ c, (Node.cat content).data.head? = some c → pyIsSpace c = false) ∧
      (∀ c, (Node.cat content).data.getLast? = some c → pyIsSpace c = false) := by
  set p := pyIsSpace with hp
  set l := content.data with hl
  have hcat : (Node.cat content).data =
      ((l.dropWhile p).reverse.dropWhile p).reverse := rfl
  set m := l.dropWhile p with hm
  refine ⟨l.takeWhile p, (m.reverse.takeWhile p).reverse, ?_, ?_, ?_, ?_, ?_⟩
  · intro c hc
    exact List.mem_takeWhile_imp hc
  · intro c hc
    rw [List.mem_reverse] at hc
    exact List.mem_takeWhile_imp hc
  · rw [hcat]
    conv_lhs => rw [← List.takeWhile_append_dropWhile p l]
    rw [← hm]
    have hm2 : m = (m.reverse.dropWhile p).reverse ++ (m.reverse.takeWhile p).reverse := by
      conv_lhs => rw [← List.reverse_reverse m,
        ← List.takeWhile_append_dropWhile p m.reverse]
      rw [List.reverse_append]
    conv_lhs => rw [hm2]
    rw [List.append_assoc]
  · intro c hc
    rw [hcat, List.head?_reverse] at hc
    have hne : m.reverse.dropWhile p ≠ [] := by
      intro he
      rw [he] at hc
      simp at hc
    rw [dropWhile_getLast?_of_ne_nil p m.reverse hne, List.getLast?_reverse] at hc
    rw [hm] at hc
    exact dropWhile_head?_false p l c hc
  · intro c hc
    rw [hcat, List.getLast?_reverse] at hc
    exact dropWhile_head?_false p m.reverse c hc

/-! ### Claim C10 -/

/-- Claim C10: the fixture builds `ssh_config` as a shallow copy of the
module-level `config`, so the copy holds the same reference to the inner
`"run"` dict; assigning the remote PATH override through the copy mutates
that shared inner dict, and afterwards the override is present when read
through the module-level `config` itself (the dict `invoke` was configured
with for local command execution). -/
theorem shallow_copy_config_mutation
    (heap : Heap) (cfg : ConfigDict) (a : Addr) (r : RunSettings)
    (hlk : cfg.lookup "run" = some a)
    (hget : heap.get a = some r) :
    ((fixtureConfigSetup heap cfg).2).lookup "run" = cfg.lookup "run" ∧
      (fixtureConfigSetup heap cfg).1.get a =
        some { r with env := some sshRunEnv } := by
  have hcopy : cfg.shallowCopy = cfg := by
    unfold ConfigDict.shallowCopy
    simp
  unfold fixtureConfigSetup
  simp only [hcopy, hlk, hget]
  exact ⟨trivial, Heap.get_set_present heap a r _ hget⟩

/-- `shallow_copy_config_mutation` applied to the module-level `config`
and heap as they stand at import time: after the first fixture use the
inner run dict carries the remote PATH override. -/
theorem shallow_copy_config_mutation_witness :
    ((fixtureConfigSetup initialHeap moduleConfig).2).lookup "run" =
        moduleConfig.lookup "run" ∧
      (fixtureConfigSetup initialHeap moduleConfig).1.get runAddr =
        some { initialRunSettings with env := some sshRunEnv } :=
  shallow_copy_config_mutation initialHeap moduleConfig runAddr
    initialRunSettings (by decide) (by decide)

end NodePlugin
